import Mathlib

/-!
Verification development for the local-ai desktop chat client.

The definitions below are shallow embeddings of the conversation-context
assembler (`prepareConversationWithContext` in `src/src/main.tsx`), the
streaming reconciliation loop (`startConversationSession` in
`src/unnamed/part_009`), and the persistent-store primitives of
`src/server/database-service.ts` (`updateMessage`, `cancelMessage`,
`errorMessage`, `getChatMessages`, `cosineSimilarity`,
`getMessagesWithEmbeddings`, `getSimilarMessages`) together with the
Express endpoints of `src/server/database-service.js` that sit between the
client and the store (in particular `PUT /api/messages/:id`, which trims
the content before writing it).

SQLite integer booleans (0/1) are modelled as `Bool`; JS numbers are
modelled as real numbers; timestamps are modelled as naturals; a fallible
remote fetch is modelled as an `Except` value passed in by the caller.
-/

namespace LocalAI

/-- One row of the `messages` table (`database-service.ts`, migration at
lines 82-94): id, chat_id, role, content, the three lifecycle flags
`canceled`/`errored`/`regenerated` (SQLite 0/1 modelled as `Bool`), and
`created_at`.  The same shape serves for the client-side in-memory
`Message` objects, which carry the same fields. -/
structure MessageRow where
  id : Nat
  chat_id : Nat
  role : String
  content : String
  canceled : Bool
  errored : Bool
  regenerated : Bool
  created_at : Nat
deriving DecidableEq, Repr

/-- One row of the `message_embeddings` table: `message_id` and the JSON
vector (JS numbers modelled as reals). -/
structure EmbeddingRow where
  message_id : Nat
  embedding : List ℝ
  created_at : Nat

/-- `DatabaseService.updateMessage` (database-service.ts lines 268-275):
`UPDATE messages SET content = ?, canceled = ?, errored = ?, regenerated = ?
WHERE id = ?`. -/
def updateMessage (msgs : List MessageRow) (id : Nat) (content : String)
    (canceled errored regenerated : Bool) : List MessageRow :=
  msgs.map fun m =>
    if m.id = id then
      { m with content := content, canceled := canceled,
               errored := errored, regenerated := regenerated }
    else m

/-- `DatabaseService.cancelMessage` (database-service.ts lines 277-284):
`UPDATE messages SET canceled = 1 WHERE id = ?`. -/
def cancelMessage (msgs : List MessageRow) (id : Nat) : List MessageRow :=
  msgs.map fun m => if m.id = id then { m with canceled := true } else m

/-- `DatabaseService.errorMessage` (database-service.ts lines 286-293):
`UPDATE messages SET errored = 1 WHERE id = ?`. -/
def errorMessage (msgs : List MessageRow) (id : Nat) : List MessageRow :=
  msgs.map fun m => if m.id = id then { m with errored := true } else m

/-- `DatabaseService.getChatMessages` (database-service.ts lines 243-257):
`SELECT * FROM messages WHERE chat_id = ? AND content != ''
ORDER BY created_at {order} LIMIT ? OFFSET ?`.  The `OFFSET` rows are
skipped after sorting and the first `LIMIT` of the remainder are kept. -/
def getChatMessages (msgs : List MessageRow) (chatId : Nat)
    (limit offset : Nat) (ascending : Bool) : List MessageRow :=
  let filtered := msgs.filter fun m => m.chat_id == chatId && m.content != ""
  let sorted := filtered.insertionSort fun a b =>
    if ascending then a.created_at ≤ b.created_at else b.created_at ≤ a.created_at
  (sorted.drop offset).take limit

/-- An ordered conversation turn as sent to the model: the
`OllamaChatMessageField` shape `{role, content}`. -/
structure ChatTurn where
  role : String
  content : String
deriving DecidableEq, Repr

/-- The fixed system instruction pushed first by
`prepareConversationWithContext` (main.tsx lines 866-870). -/
def contextSystemTurn : ChatTurn :=
  { role := "system",
    content := "You are provided with relevant excerpts from the conversation history for context purposes only. Your task is to respond ONLY to the user's latest message. Use the historical context to inform your response when relevant, but always prioritize and directly address the user's current request. If the user asks something new or gives a different instruction, respond to that new request - do not be constrained by previous conversation topics." }

/-- `prepareConversationWithContext` (main.tsx lines 840-899).  The
`use_memory` setting is the first argument; the outcome of
`apiService.getConversationWithContext(chatId, 10)` — which either throws
or yields the fetched history turns — is passed as an `Except` value.
With memory off it returns the single current-user turn; a fetch failure
falls into the `catch` and returns the same single-turn list; an empty
fetch returns the same single-turn list; otherwise the system instruction
is pushed first, then every fetched turn, and the current user message is
appended only when `isRegenerated` is false. -/
def prepareConversationWithContext (useMemory : Bool)
    (fetched : Except Unit (List ChatTurn)) (currentMessage : String)
    (isRegenerated : Bool) : List ChatTurn :=
  if !useMemory then
    [{ role := "user", content := currentMessage }]
  else
    match fetched with
    | .error _ => [{ role := "user", content := currentMessage }]
    | .ok contextMessages =>
      if contextMessages.length = 0 then
        [{ role := "user", content := currentMessage }]
      else
        let context := contextSystemTurn ::
          contextMessages.map (fun m => { role := m.role, content := m.content })
        if !isRegenerated then
          context ++ [{ role := "user", content := currentMessage }]
        else
          context

/-- The `message` field of one parsed stream event
(`{message:{role,content}, done}`); only `content` is consulted by the
reconciliation loop. -/
structure StreamDelta where
  content : String
deriving DecidableEq, Repr

/-- One newline-delimited JSON event of the model-serving stream.  The
`message` field may be absent (JS falsy check `data.message`). -/
structure StreamEvent where
  message : Option StreamDelta
  done : Bool
deriving DecidableEq, Repr

/-- The outcome of `JSON.parse` on one non-blank stream line: either a
parsed event or a parse failure (which the loop logs and skips). -/
inductive StreamLine where
  | parsed (ev : StreamEvent)
  | malformed
deriving DecidableEq, Repr

/-- The accumulator of the reconciliation loop in
`startConversationSession` (part_009 lines 122-152): starting from `""`,
each successfully parsed line whose `message.content` is truthy (a
non-empty string) appends that content; malformed lines and events
without truthy content leave the accumulator unchanged. -/
def accumulateStep (acc : String) (l : StreamLine) : String :=
  match l with
  | .parsed ev =>
    match ev.message with
    | some d => if d.content ≠ "" then acc ++ d.content else acc
    | none => acc
  | .malformed => acc

/-- The final value of the accumulator over a list of received lines. -/
def accumulateStream (lines : List StreamLine) : String :=
  lines.foldl accumulateStep ""

/-- Concatenation, in arrival order, of the `message.content` fields of
the successfully parsed stream events — the reference value the spec
describes for a completed turn (spec §8, first bullet). -/
def deltaConcat (lines : List StreamLine) : String :=
  String.join (lines.filterMap fun l =>
    match l with
    | .parsed ev => ev.message.map (fun d => d.content)
    | .malformed => none)

/-- JavaScript's `String.prototype.trim()`: remove leading and trailing
whitespace.  Modelled on the string's character list. -/
def trimString (s : String) : String :=
  ⟨(((s.data.dropWhile Char.isWhitespace).reverse.dropWhile
      Char.isWhitespace).reverse)⟩

/-- The `PUT /api/messages/:id` endpoint (database-service.js lines
1237-1279): trims the request content (`const data = content.trim()`) and
writes it through `dbService.updateMessage` together with the three
flags.  (The fire-and-forget embedding generation it also starts does not
touch the `messages` table.) -/
def putMessage (msgs : List MessageRow) (id : Nat) (content : String)
    (canceled errored regenerated : Bool) : List MessageRow :=
  updateMessage msgs id (trimString content) canceled errored regenerated

/-- The store effect of a cleanly completed streaming turn
(part_009 lines 154-161): `apiService.updateMessage(aiId, accumulatedText,
false, false, isRegenerated)`, which reaches the store through
`PUT /api/messages/:id`. -/
def finishTurnClean (msgs : List MessageRow) (aiId : Nat)
    (lines : List StreamLine) (isRegenerated : Bool) : List MessageRow :=
  putMessage msgs aiId (accumulateStream lines) false false isRegenerated

/-- One step of the in-memory reconciliation (part_009 lines 133-151):
a parsed event with truthy content extends the accumulator and rewrites
the placeholder's visible content to the full accumulated value; every
other line leaves both unchanged.  State is (uiMessages, accumulator). -/
def streamStep (aiId : Nat) (st : List MessageRow × String)
    (l : StreamLine) : List MessageRow × String :=
  match l with
  | .parsed ev =>
    match ev.message with
    | some d =>
      if d.content ≠ "" then
        let acc := st.2 ++ d.content
        (st.1.map (fun m => if m.id = aiId then { m with content := acc } else m),
         acc)
      else st
    | none => st
  | .malformed => st

/-- The in-memory reconciliation loop over the lines received before the
stream ended (part_009 lines 122-152). -/
def runStream (aiId : Nat) (ui : List MessageRow)
    (lines : List StreamLine) : List MessageRow × String :=
  lines.foldl (streamStep aiId) (ui, "")

/-- The abort path of `startConversationSession` (part_009 lines
162-179): after the lines received before the `AbortError`, the in-memory
message is marked `canceled := true` and the store receives only
`apiService.cancelMessageGeneration(aiId)` — i.e. `cancelMessage` —
with no content write.  Returns (in-memory list, store list). -/
def abortTurn (ui db : List MessageRow) (aiId : Nat)
    (lines : List StreamLine) : List MessageRow × List MessageRow :=
  let st := runStream aiId ui lines
  (st.1.map (fun m => if m.id = aiId then { m with canceled := true } else m),
   cancelMessage db aiId)

/-- `DatabaseService.cosineSimilarity` (database-service.ts lines
386-405): one loop over the indices of `vecA` accumulating the dot
product and both squared norms, then square roots, a zero-norm guard
returning 0, and the quotient.  JS float64 arithmetic is modelled by real
arithmetic; an index read past the end of a vector is modelled as 0 (the
theorems below only apply it to vectors of equal length, where no
out-of-range read occurs). -/
noncomputable def cosineSimilarity (vecA vecB : List ℝ) : ℝ :=
  let acc := (List.range vecA.length).foldl
    (fun (p : ℝ × ℝ × ℝ) i =>
      (p.1 + vecA.getD i 0 * vecB.getD i 0,
       p.2.1 + vecA.getD i 0 * vecA.getD i 0,
       p.2.2 + vecB.getD i 0 * vecB.getD i 0))
    (0, 0, 0)
  let normA := Real.sqrt acc.2.1
  let normB := Real.sqrt acc.2.2
  if normA = 0 ∨ normB = 0 then 0
  else acc.1 / (normA * normB)

/-- One row of `getMessagesWithEmbeddings`: the selected columns
`m.id, m.role, m.content, me.embedding`, with `m.created_at` carried
along because the SQL orders by it. -/
structure MessageWithEmbedding where
  id : Nat
  role : String
  content : String
  embedding : List ℝ
  created_at : Nat

/-- `DatabaseService.getMessagesWithEmbeddings` (database-service.ts
lines 341-357): `SELECT m.id, m.role, m.content, me.embedding FROM
messages m JOIN message_embeddings me ON m.id = me.message_id WHERE
m.chat_id = ? ORDER BY m.created_at DESC LIMIT {limit}` (the default
descending order is the one `getSimilarMessages` uses).  The inner join
yields one row per message/embedding pair. -/
def getMessagesWithEmbeddings (msgs : List MessageRow)
    (embs : List EmbeddingRow) (chatId : Nat) (limit : Nat) :
    List MessageWithEmbedding :=
  let joined := (msgs.filter fun m => m.chat_id == chatId).flatMap fun m =>
    (embs.filter fun e => e.message_id == m.id).map fun e =>
      { id := m.id, role := m.role, content := m.content,
        embedding := e.embedding, created_at := m.created_at }
  ((joined.insertionSort fun a b => b.created_at ≤ a.created_at).take limit)

/-- One entry of the `getSimilarMessages` result:
`{id, role, content, similarity}` — never the raw vectors. -/
structure SimilarEntry where
  id : Nat
  role : String
  content : String
  similarity : ℝ

/-- `DatabaseService.getSimilarMessages` (database-service.ts lines
408-431): score the candidate pool from `getMessagesWithEmbeddings` by
cosine similarity to the query embedding, sort descending by similarity
(`.sort((a, b) => b.similarity - a.similarity)`, a stable sort), and
`slice(0, topK)`. -/
noncomputable def getSimilarMessages (msgs : List MessageRow)
    (embs : List EmbeddingRow) (chatId : Nat) (queryEmbedding : List ℝ)
    (limit topK : Nat) : List SimilarEntry :=
  let similarities :=
    (getMessagesWithEmbeddings msgs embs chatId limit).map fun m =>
      { id := m.id, role := m.role, content := m.content,
        similarity := cosineSimilarity queryEmbedding m.embedding }
  ((similarities.insertionSort fun a b => b.similarity ≤ a.similarity).take topK)

/-! ### Helper lemmas -/

theorem string_join_cons (s : String) (l : List String) :
    String.join (s :: l) = s ++ String.join l := by
  apply String.ext
  simp

/-- C5: with the `use_memory` setting off, `prepareConversationWithContext`
returns exactly the one-element list `[{role := "user", content :=
currentMessage}]` — no system prompt and no history turns — for every
fetch outcome, message and regeneration flag. -/
theorem prepare_memory_off_single_turn (fetched : Except Unit (List ChatTurn))
    (msg : String) (r : Bool) :
    prepareConversationWithContext false fetched msg r
      = [{ role := "user", content := msg }] := rfl

/-- C6: with `use_memory` on and a store fetch yielding zero prior context
messages, `prepareConversationWithContext` returns exactly the one-element
list `[{role := "user", content := currentMessage}]`, with no system
instruction injected. -/
theorem prepare_memory_on_no_history_single_turn (msg : String) (r : Bool) :
    prepareConversationWithContext true (Except.ok []) msg r
      = [{ role := "user", content := msg }] := rfl

/-- C4 counterexample: when the context fetch fails, the fallback list is
exactly the single current-user turn — it contains no generic system
prompt, contrary to the claim that the failure path returns the minimal
single-turn list *plus* a generic system prompt. -/
theorem prepare_fetch_error_counterexample :
    prepareConversationWithContext true (Except.error ()) "hello" false
      = [{ role := "user", content := "hello" }] ∧
    (prepareConversationWithContext true (Except.error ()) "hello"
        false).all (fun t => t.role != "system") = true :=
  ⟨rfl, rfl⟩

/-- C4 amended: for every message and regeneration flag, a failed context
fetch makes `prepareConversationWithContext` return the minimal
single-turn list `[{role := "user", content := currentMessage}]` (with no
system prompt), and the failure is never propagated to the caller. -/
theorem prepare_fetch_error_fallback (msg : String) (r : Bool) :
    prepareConversationWithContext true (Except.error ()) msg r
      = [{ role := "user", content := msg }] := rfl

/-- C3 counterexample: for a regeneration with memory on whose history
fetch yields zero prior turns, the assembled context is the single
current-user turn — the current message is *not* omitted and no system
turn is present, contrary to the claim that the context always has
exactly N turns plus one system turn with the current message omitted. -/
theorem prepare_regeneration_counterexample :
    prepareConversationWithContext true (Except.ok []) "hello" true
      = [{ role := "user", content := "hello" }] ∧
    (prepareConversationWithContext true (Except.ok []) "hello"
        true).all (fun t => t.role != "system") = true :=
  ⟨rfl, rfl⟩

/-- C3 amended: for a regeneration with memory on whose history fetch
yields N ≥ 1 prior turns, the assembled context is exactly the system
instruction turn followed by the N fetched turns — N + 1 turns in total,
with the current message omitted; a fetch yielding zero turns instead
falls back to the single current-user turn (see the counterexample). -/
theorem prepare_regeneration_context (msgs : List ChatTurn) (cur : String)
    (h : msgs ≠ []) :
    prepareConversationWithContext true (Except.ok msgs) cur true
        = contextSystemTurn ::
            msgs.map (fun m => { role := m.role, content := m.content }) ∧
      (prepareConversationWithContext true (Except.ok msgs) cur true).length
        = msgs.length + 1 := by
  have hlen : ¬ msgs.length = 0 := by
    simpa [List.length_eq_zero] using h
  constructor
  · simp [prepareConversationWithContext, hlen]
  · simp [prepareConversationWithContext, hlen]

/-- Witness for C3 amended at a one-turn history. -/
theorem prepare_regeneration_context_witness :
    prepareConversationWithContext true
        (Except.ok [{ role := "user", content := "hi" }]) "x" true
      = contextSystemTurn ::
          [({ role := "user", content := "hi" } : ChatTurn)].map
            (fun m => { role := m.role, content := m.content }) ∧
    (prepareConversationWithContext true
        (Except.ok [{ role := "user", content := "hi" }]) "x" true).length
      = 2 :=
  prepare_regeneration_context [{ role := "user", content := "hi" }] "x"
    (by simp)

theorem foldl_accumulateStep (lines : List StreamLine) (acc : String) :
    lines.foldl accumulateStep acc = acc ++ deltaConcat lines := by
  induction lines generalizing acc with
  | nil => simp [deltaConcat, String.join]
  | cons l rest ih =>
    cases l with
    | malformed =>
      rw [List.foldl_cons]
      simp only [accumulateStep]
      rw [ih]
      simp [deltaConcat, List.filterMap_cons]
    | parsed ev =>
      cases hm : ev.message with
      | none =>
        rw [List.foldl_cons]
        simp only [accumulateStep, hm]
        rw [ih]
        simp [deltaConcat, List.filterMap_cons, hm]
      | some d =>
        rw [List.foldl_cons]
        simp only [accumulateStep, hm]
        by_cases hc : d.content = ""
        · rw [if_neg (by simpa using hc), ih]
          simp [deltaConcat, List.filterMap_cons, hm, string_join_cons, hc]
        · rw [if_pos hc, ih]
          simp [deltaConcat, List.filterMap_cons, hm, string_join_cons,
            String.append_assoc]

theorem accumulateStream_eq_deltaConcat (lines : List StreamLine) :
    accumulateStream lines = deltaConcat lines := by
  unfold accumulateStream
  rw [foldl_accumulateStep]
  simp

/-- C2 counterexample: a cleanly completed turn whose single parsed event
carries the content "Paris " (with a trailing space) is persisted with
content "Paris": the `PUT /api/messages/:id` endpoint trims the
accumulated text before writing it, so the stored content differs from
the exact concatenation of the received deltas. -/
theorem finishTurnClean_counterexample :
    (finishTurnClean
        [{ id := 1, chat_id := 1, role := "assistant", content := "",
           canceled := false, errored := false, regenerated := false,
           created_at := 1 }] 1
        [StreamLine.parsed { message := some { content := "Paris " },
                             done := true }] false).map (fun m => m.content)
      = ["Paris"] ∧
    deltaConcat
        [StreamLine.parsed { message := some { content := "Paris " },
                             done := true }]
      = "Paris " := by
  constructor
  · rfl
  · rfl

/-- C2 amended: for every turn whose stream completes cleanly, the row
targeted by the update ends with content equal to the **trimmed**
concatenation, in arrival order, of the `message.content` fields of the
successfully parsed stream events, with `canceled = false` and
`errored = false`; all other rows are untouched. -/
theorem finishTurnClean_spec (msgs : List MessageRow) (aiId : Nat)
    (lines : List StreamLine) (regen : Bool) :
    finishTurnClean msgs aiId lines regen
      = msgs.map (fun m =>
          if m.id = aiId then
            { m with content := trimString (deltaConcat lines),
                     canceled := false, errored := false,
                     regenerated := regen }
          else m) := by
  unfold finishTurnClean putMessage updateMessage
  rw [accumulateStream_eq_deltaConcat]

/-- C1: evaluation of the abort path at the spec's own scenario (abort
fired after receiving the delta "Par" into an empty placeholder with id
1).  The in-memory message ends with content "Par" and `canceled = true`,
but the persisted row keeps content `""` with `canceled = true`: the
abort path only calls `cancelMessageGeneration`, never an update with the
accumulated text, so the store is left with an empty message — contrary
to the claim, to the spec's scenario, and to the code's own comment that
"the accumulated text is already saved in the database". -/
theorem abortTurn_divergence :
    (abortTurn
        [{ id := 1, chat_id := 1, role := "assistant", content := "",
           canceled := false, errored := false, regenerated := false,
           created_at := 1 }]
        [{ id := 1, chat_id := 1, role := "assistant", content := "",
           canceled := false, errored := false, regenerated := false,
           created_at := 1 }] 1
        [StreamLine.parsed { message := some { content := "Par" },
                             done := false }]).1
      = [{ id := 1, chat_id := 1, role := "assistant", content := "Par",
           canceled := true, errored := false, regenerated := false,
           created_at := 1 }] ∧
    (abortTurn
        [{ id := 1, chat_id := 1, role := "assistant", content := "",
           canceled := false, errored := false, regenerated := false,
           created_at := 1 }]
        [{ id := 1, chat_id := 1, role := "assistant", content := "",
           canceled := false, errored := false, regenerated := false,
           created_at := 1 }] 1
        [StreamLine.parsed { message := some { content := "Par" },
                             done := false }]).2
      = [{ id := 1, chat_id := 1, role := "assistant", content := "",
           canceled := true, errored := false, regenerated := false,
           created_at := 1 }] := by
  constructor
  · rfl
  · rfl

/-- C9: every message returned by `getChatMessages` has non-empty
content: the query's `content != ''` filter removes empty rows before
ordering and pagination, for every chat id, limit, offset and order, so
an assistant placeholder still awaiting stream completion never appears
in fetched history. -/
theorem getChatMessages_content_nonempty (msgs : List MessageRow)
    (chatId limit offset : Nat) (ascending : Bool) :
    ∀ m ∈ getChatMessages msgs chatId limit offset ascending,
      m.content ≠ "" := by
  intro m hm
  unfold getChatMessages at hm
  have h1 : m ∈ (msgs.filter fun x => x.chat_id == chatId && x.content != "") := by
    have h2 := List.mem_of_mem_drop (List.mem_of_mem_take hm)
    simpa using (List.mem_insertionSort _).1 h2
  have h3 := List.of_mem_filter h1
  simp only [Bool.and_eq_true, bne_iff_ne, ne_eq] at h3
  exact h3.2

/-- Witness for C9: a concrete store where the fetched page is non-empty
and the fetched row's content is non-empty. -/
theorem getChatMessages_content_nonempty_witness :
    ({ id := 1, chat_id := 1, role := "user", content := "hi",
       canceled := false, errored := false, regenerated := false,
       created_at := 0 } : MessageRow).content ≠ "" :=
  getChatMessages_content_nonempty
    [{ id := 1, chat_id := 1, role := "user", content := "hi",
       canceled := false, errored := false, regenerated := false,
       created_at := 0 }] 1 50 0 true
    { id := 1, chat_id := 1, role := "user", content := "hi",
      canceled := false, errored := false, regenerated := false,
      created_at := 0 }
    (by decide)

/-- C10: `cancelMessage` rewrites only the `canceled` flag of the rows
whose id matches, leaving content, errored, regenerated, role, chat_id
and created_at unchanged, and leaves every other row untouched; likewise
`errorMessage` sets only the `errored` flag.  Stated pointwise: the i-th
row of the result is the i-th input row, with at most the one flag
flipped when the id matches. -/
theorem cancelMessage_errorMessage_frame (msgs : List MessageRow)
    (id i : Nat) (d : MessageRow) (h : i < msgs.length) :
    (cancelMessage msgs id).getD i d
        = (if (msgs.getD i d).id = id then
             { msgs.getD i d with canceled := true }
           else msgs.getD i d) ∧
    (errorMessage msgs id).getD i d
        = (if (msgs.getD i d).id = id then
             { msgs.getD i d with errored := true }
           else msgs.getD i d) := by
  have hsome : msgs.get? i = some (msgs.get ⟨i, h⟩) := List.get?_eq_get h
  have hget : msgs.getD i d = msgs.get ⟨i, h⟩ := by
    rw [List.getD_eq_get?, hsome]
    rfl
  constructor
  · have hmap : (cancelMessage msgs id).get? i
        = some (if (msgs.get ⟨i, h⟩).id = id then
                  { msgs.get ⟨i, h⟩ with canceled := true }
                else msgs.get ⟨i, h⟩) := by
      unfold cancelMessage
      rw [List.get?_map, hsome]
      rfl
    rw [List.getD_eq_get?, hmap, hget]
    rfl
  · have hmap : (errorMessage msgs id).get? i
        = some (if (msgs.get ⟨i, h⟩).id = id then
                  { msgs.get ⟨i, h⟩ with errored := true }
                else msgs.get ⟨i, h⟩) := by
      unfold errorMessage
      rw [List.get?_map, hsome]
      rfl
    rw [List.getD_eq_get?, hmap, hget]
    rfl

/-- Witness for C10 at a two-row store: the row with the targeted id gets
only its flag set, the other row is returned unchanged. -/
theorem cancelMessage_errorMessage_frame_witness :
    (cancelMessage
        [{ id := 1, chat_id := 1, role := "assistant", content := "a",
           canceled := false, errored := false, regenerated := false,
           created_at := 0 },
         { id := 2, chat_id := 1, role := "user", content := "b",
           canceled := false, errored := false, regenerated := false,
           created_at := 1 }] 1).getD 0
        { id := 0, chat_id := 0, role := "", content := "",
          canceled := false, errored := false, regenerated := false,
          created_at := 0 }
      = { id := 1, chat_id := 1, role := "assistant", content := "a",
          canceled := true, errored := false, regenerated := false,
          created_at := 0 } ∧
    (errorMessage
        [{ id := 1, chat_id := 1, role := "assistant", content := "a",
           canceled := false, errored := false, regenerated := false,
           created_at := 0 },
         { id := 2, chat_id := 1, role := "user", content := "b",
           canceled := false, errored := false, regenerated := false,
           created_at := 1 }] 1).getD 0
        { id := 0, chat_id := 0, role := "", content := "",
          canceled := false, errored := false, regenerated := false,
          created_at := 0 }
      = { id := 1, chat_id := 1, role := "assistant", content := "a",
          canceled := false, errored := true, regenerated := false,
          created_at := 0 } :=
  cancelMessage_errorMessage_frame
    [{ id := 1, chat_id := 1, role := "assistant", content := "a",
       canceled := false, errored := false, regenerated := false,
       created_at := 0 },
     { id := 2, chat_id := 1, role := "user", content := "b",
       canceled := false, errored := false, regenerated := false,
       created_at := 1 }] 1 0
    { id := 0, chat_id := 0, role := "", content := "",
      canceled := false, errored := false, regenerated := false,
      created_at := 0 }
    (by decide)

/-- C7: `getSimilarMessages` returns at most `topK` entries, and every
returned entry corresponds to a message that has a saved embedding row —
a message without an embedding never appears, because the candidate pool
is drawn from the inner join of `messages` with `message_embeddings`. -/
theorem getSimilarMessages_spec (msgs : List MessageRow)
    (embs : List EmbeddingRow) (chatId : Nat) (q : List ℝ)
    (limit topK : Nat) :
    (getSimilarMessages msgs embs chatId q limit topK).length ≤ topK ∧
    ∀ e ∈ getSimilarMessages msgs embs chatId q limit topK,
      ∃ emb ∈ embs, emb.message_id = e.id := by
  constructor
  · unfold getSimilarMessages
    exact List.length_take_le _ _
  · intro e he
    unfold getSimilarMessages at he
    have h1 : e ∈ (getMessagesWithEmbeddings msgs embs chatId limit).map
        (fun m => ({ id := m.id, role := m.role, content := m.content,
                     similarity := cosineSimilarity q m.embedding }
                   : SimilarEntry)) := by
      have h2 := List.mem_of_mem_take he
      simpa using (List.mem_insertionSort _).1 h2
    obtain ⟨mwe, hmwe, hme⟩ := List.mem_map.1 h1
    have h3 : mwe ∈ (msgs.filter fun m => m.chat_id == chatId).flatMap
        (fun m => (embs.filter fun e' => e'.message_id == m.id).map
          (fun e' => ({ id := m.id, role := m.role, content := m.content,
                        embedding := e'.embedding,
                        created_at := m.created_at }
                      : MessageWithEmbedding))) := by
      unfold getMessagesWithEmbeddings at hmwe
      have h4 := List.mem_of_mem_take hmwe
      simpa using (List.mem_insertionSort _).1 h4
    obtain ⟨mr, _, hin⟩ := List.mem_flatMap.1 h3
    obtain ⟨er, her, here⟩ := List.mem_map.1 hin
    refine ⟨er, List.mem_of_mem_filter her, ?_⟩
    have hid : er.message_id = mr.id := by
      simpa using List.of_mem_filter her
    have : e.id = mr.id := by
      rw [← hme, ← here]
    rw [hid, this]

/-- Witness for C7: a one-message store with one saved embedding; the
single returned entry's id has an embedding row. -/
theorem getSimilarMessages_spec_witness :
    (getSimilarMessages
        [{ id := 1, chat_id := 1, role := "user", content := "hi",
           canceled := false, errored := false, regenerated := false,
           created_at := 0 }]
        [{ message_id := 1, embedding := [1], created_at := 0 }]
        1 [1] 5 5).length ≤ 5 ∧
    ∃ emb ∈ [({ message_id := 1, embedding := [1], created_at := 0 }
        : EmbeddingRow)], emb.message_id = 1 :=
  ⟨(getSimilarMessages_spec
      [{ id := 1, chat_id := 1, role := "user", content := "hi",
         canceled := false, errored := false, regenerated := false,
         created_at := 0 }]
      [{ message_id := 1, embedding := [1], created_at := 0 }]
      1 [1] 5 5).1,
   (getSimilarMessages_spec
      [{ id := 1, chat_id := 1, role := "user", content := "hi",
         canceled := false, errored := false, regenerated := false,
         created_at := 0 }]
      [{ message_id := 1, embedding := [1], created_at := 0 }]
      1 [1] 5 5).2
     { id := 1, role := "user", content := "hi",
       similarity := cosineSimilarity [1] [1] }
     (by
       simp [getSimilarMessages, getMessagesWithEmbeddings,
         List.insertionSort, List.orderedInsert])⟩

theorem getD_replicate_zero (n i : Nat) :
    (List.replicate n (0:ℝ)).getD i 0 = 0 := by
  rcases lt_or_ge i n with h | h
  · rw [List.getD_eq_getElem _ _ (by simpa using h)]
    simp
  · rw [List.getD_eq_default _ _ (by simpa using h)]

theorem cosFoldSelf (v : List ℝ) (l : List ℕ) (a b c : ℝ) :
    l.foldl
      (fun (p : ℝ × ℝ × ℝ) i =>
        (p.1 + v.getD i 0 * v.getD i 0,
         p.2.1 + v.getD i 0 * v.getD i 0,
         p.2.2 + v.getD i 0 * v.getD i 0)) (a, b, c)
      = (a + (l.map (fun i => v.getD i 0 * v.getD i 0)).sum,
         b + (l.map (fun i => v.getD i 0 * v.getD i 0)).sum,
         c + (l.map (fun i => v.getD i 0 * v.getD i 0)).sum) := by
  induction l generalizing a b c with
  | nil => simp
  | cons x xs ih =>
    rw [List.foldl_cons, ih]
    simp [add_assoc]

theorem cosFoldZeroRight (v : List ℝ) (n : Nat) (l : List ℕ) (a b c : ℝ) :
    l.foldl
      (fun (p : ℝ × ℝ × ℝ) i =>
        (p.1 + v.getD i 0 * (List.replicate n (0:ℝ)).getD i 0,
         p.2.1 + v.getD i 0 * v.getD i 0,
         p.2.2 + (List.replicate n (0:ℝ)).getD i 0 *
           (List.replicate n (0:ℝ)).getD i 0)) (a, b, c)
      = (a, b + (l.map (fun i => v.getD i 0 * v.getD i 0)).sum, c) := by
  induction l generalizing a b c with
  | nil => simp
  | cons x xs ih =>
    rw [List.foldl_cons, ih]
    simp [getD_replicate_zero, add_assoc]

/-- C8: with JS float64 arithmetic modelled as real arithmetic,
`cosineSimilarity(v, v) = 1` for every vector `v` with a non-zero
component, and `cosineSimilarity(v, 0) = 0` for every `v` (the zero-norm
guard returns 0 instead of dividing by zero), where `0` is the zero
vector of the same length as `v`. -/
theorem cosineSimilarity_spec (v : List ℝ) :
    ((∃ x ∈ v, x ≠ 0) → cosineSimilarity v v = 1) ∧
    cosineSimilarity v (List.replicate v.length 0) = 0 := by
  constructor
  · rintro ⟨x, hxv, hx⟩
    simp only [cosineSimilarity]
    rw [cosFoldSelf]
    simp only [zero_add]
    set S := ((List.range v.length).map
      (fun i => v.getD i 0 * v.getD i 0)).sum with hS
    have hpos : 0 < S := by
      obtain ⟨i, hi, hgi⟩ := List.getElem_of_mem hxv
      have hterm : x * x ∈ (List.range v.length).map
          (fun j => v.getD j 0 * v.getD j 0) := by
        have hmem : i ∈ List.range v.length := List.mem_range.2 hi
        have hgd : v.getD i 0 = x := by
          rw [List.getD_eq_getElem _ _ (by simpa using hi)]
          exact hgi
        rw [← hgd]
        exact List.mem_map_of_mem (fun j => v.getD j 0 * v.getD j 0) hmem
      have hnonneg : ∀ y ∈ (List.range v.length).map
          (fun j => v.getD j 0 * v.getD j 0), 0 ≤ y := by
        intro y hy
        obtain ⟨j, _, rfl⟩ := List.mem_map.1 hy
        exact mul_self_nonneg _
      have hle : x * x ≤ S := List.single_le_sum hnonneg _ hterm
      have hxx : 0 < x * x := mul_self_pos.2 hx
      exact lt_of_lt_of_le hxx hle
    have hsqrt : Real.sqrt S ≠ 0 := by
      rw [Real.sqrt_ne_zero']
      exact hpos
    rw [if_neg (by simp [hsqrt])]
    rw [Real.mul_self_sqrt hpos.le]
    exact div_self hpos.ne'
  · simp only [cosineSimilarity]
    rw [cosFoldZeroRight]
    rw [if_pos (Or.inr Real.sqrt_zero)]

/-- Witness for C8 at the one-component vector `[1]`. -/
theorem cosineSimilarity_spec_witness :
    (∃ x ∈ [(1:ℝ)], x ≠ 0) ∧ cosineSimilarity [1] [1] = 1 ∧
    cosineSimilarity [1] (List.replicate 1 (0:ℝ)) = 0 :=
  ⟨⟨1, by simp⟩,
   (cosineSimilarity_spec [1]).1 ⟨1, by simp⟩,
   (cosineSimilarity_spec [1]).2⟩

end LocalAI
